import Mathlib

/-!
Shallow embedding of the SMART-SURVEILLANCE-SYSTEM core
(zone manager, alert manager, pipeline queues, performance monitor),
translated from the Python sources, with theorems checking the
specification's claims against it.
-/

namespace SmartSurveillance

/-! ### Geometry

`ZoneManager` delegates polygon containment to the geometry library
(`shapely.geometry.Polygon.contains`): strict interior membership of a
point in the polygon given by its ordered vertex ring.  We embed that
containment test as the standard even-odd ray-crossing algorithm over
integer coordinates (exact arithmetic, no division). -/

/-- A planar point with integer coordinates, as produced by
`map(int, box.xyxy[0])` in `process_results`. -/
abbrev Pt := Int × Int

/-- Whether the horizontal ray from `p` to the right crosses the open
edge from `a` to `b` (even-odd crossing rule, cross-multiplied to avoid
division). -/
def edgeCrosses (p a b : Pt) : Bool :=
  (decide (p.2 < a.2) != decide (p.2 < b.2)) &&
  (if 0 < b.2 - a.2 then
    decide ((p.1 - a.1) * (b.2 - a.2) < (b.1 - a.1) * (p.2 - a.2))
  else
    decide ((b.1 - a.1) * (p.2 - a.2) < (p.1 - a.1) * (b.2 - a.2)))

/-- The edge list of a polygon: each vertex paired with its successor,
the last vertex closing back to the first (shapely closes the ring). -/
def polyEdges (poly : List Pt) : List (Pt × Pt) :=
  poly.zip (poly.rotate 1)

/-- Interior containment of point `p` in the polygon with vertex ring
`poly`: odd number of ray crossings.  Embeds the behavior of
`polygon.contains(point)` used by `ZoneManager.check_point_in_zones`. -/
def containsPt (poly : List Pt) (p : Pt) : Bool :=
  ((polyEdges poly).countP (fun e => edgeCrosses p e.1 e.2)) % 2 == 1

/-! ### Zone manager (`utils/zone_manager.py`)

A zone table is the insertion-ordered dictionary `self.zones`, embedded
as an association list with dictionary update semantics (updating an
existing key keeps its position; a new key is appended). -/

/-- One stored zone record, as built by `load_zones` / `add_zone`:
`polygon` is the vertex ring the shapely `Polygon` was constructed from,
kept alongside the raw `points` list. -/
structure Zone where
  name : String
  polygon : List Pt
  points : List Pt
  color : Int × Int × Int
  alert_enabled : Bool
deriving DecidableEq, Repr

/-- The `self.zones` dictionary: insertion-ordered association list. -/
abbrev ZoneTable := List (String × Zone)

/-- Membership test `zone_id in self.zones`. -/
def hasKey (zs : ZoneTable) (k : String) : Bool :=
  zs.any (fun kv => kv.1 == k)

/-- Dictionary write `self.zones[k] = v`: replaces in place when the key
exists, appends otherwise. -/
def dictInsert (zs : ZoneTable) (k : String) (v : Zone) : ZoneTable :=
  if hasKey zs k then
    zs.map (fun kv => if kv.1 == k then (k, v) else kv)
  else
    zs ++ [(k, v)]

/-- Dictionary read `self.zones.get(k)`. -/
def dictGet (zs : ZoneTable) (k : String) : Option Zone :=
  (zs.find? (fun kv => kv.1 == k)).map Prod.snd

/-- In-place field mutation of the entry at key `k`
(`self.zones[k]['field'] = ...`). -/
def mapVal (zs : ZoneTable) (k : String) (f : Zone → Zone) : ZoneTable :=
  zs.map (fun kv => if kv.1 == k then (kv.1, f kv.2) else kv)

/-- One entry of the `zones_config` dictionary handed to `load_zones`;
every field may be absent (`zone_data.get(...)` with a default). -/
structure ZoneConfig where
  name : Option String
  points : Option (List Pt)
  color : Option (Int × Int × Int)
  alert_enabled : Option Bool
deriving DecidableEq, Repr

/-- `ZoneManager.load_zones`: iterates the configuration in insertion
order, skips every entry whose point list has fewer than 3 points, and
stores the rest with defaults filled in. -/
def load_zones (zs : ZoneTable) : List (String × ZoneConfig) → ZoneTable
  | [] => zs
  | (zone_id, zone_data) :: rest =>
    let points := zone_data.points.getD []
    if points.length < 3 then load_zones zs rest
    else
      load_zones
        (dictInsert zs zone_id
          { name := zone_data.name.getD zone_id
            polygon := points
            points := points
            color := zone_data.color.getD (0, 0, 255)
            alert_enabled := zone_data.alert_enabled.getD true })
        rest

/-- `ZoneManager.check_point_in_zones`: walks the zone table in
insertion order, skips zones with alerts disabled, and returns the id
of the first remaining zone whose polygon contains the point. -/
def check_point_in_zones (zs : ZoneTable) (p : Pt) : Option String :=
  match zs with
  | [] => none
  | (zone_id, z) :: rest =>
    if !z.alert_enabled then check_point_in_zones rest p
    else if containsPt z.polygon p then some zone_id
    else check_point_in_zones rest p

/-- `ZoneManager.update_zone`: fails on an unknown id; otherwise applies
each supplied field, installing a new point list and polygon only when
the list has at least 3 points, and returns success. -/
def update_zone (zs : ZoneTable) (zone_id : String) (points : Option (List Pt))
    (alert_enabled : Option Bool) (color : Option (Int × Int × Int)) :
    Bool × ZoneTable :=
  if !hasKey zs zone_id then (false, zs)
  else
    let zs1 :=
      match points with
      | some pts =>
        if 3 ≤ pts.length then
          mapVal zs zone_id (fun z => { z with points := pts, polygon := pts })
        else zs
      | none => zs
    let zs2 :=
      match alert_enabled with
      | some b => mapVal zs1 zone_id (fun z => { z with alert_enabled := b })
      | none => zs1
    let zs3 :=
      match color with
      | some c => mapVal zs2 zone_id (fun z => { z with color := c })
      | none => zs2
    (true, zs3)

/-- `ZoneManager.add_zone`: fails when the id already exists or the
point list has fewer than 3 points; otherwise appends the new zone. -/
def add_zone (zs : ZoneTable) (zone_id nm : String) (points : List Pt)
    (color : Int × Int × Int) (alert_enabled : Bool) : Bool × ZoneTable :=
  if hasKey zs zone_id || points.length < 3 then (false, zs)
  else
    (true, zs ++ [(zone_id,
      { name := nm, polygon := points, points := points,
        color := color, alert_enabled := alert_enabled })])

/-- `ZoneManager.remove_zone`: fails on an unknown id, otherwise deletes
the entry. -/
def remove_zone (zs : ZoneTable) (zone_id : String) : Bool × ZoneTable :=
  if !hasKey zs zone_id then (false, zs)
  else (true, zs.filter (fun kv => kv.1 != zone_id))

/-! ### Detection anchor (`src/intruder_detection.py`, `process_results`)

For each target-class box the code computes the bottom-center "feet"
point `feet_x = (x1 + x2) // 2, feet_y = y2` (Python floor division)
and queries the zone manager at that point. -/

/-- The feet anchor point of a detection box, from `process_results`. -/
def anchor_point (x1 _y1 x2 y2 : Int) : Pt :=
  ((x1 + x2).fdiv 2, y2)

/-- The zone-membership decision `process_results` takes for a box:
`check_point_in_zones` queried at the feet anchor point. -/
def detection_zone (zs : ZoneTable) (x1 y1 x2 y2 : Int) : Option String :=
  check_point_in_zones zs (anchor_point x1 y1 x2 y2)

/-! ### Alert manager (`utils/alert_manager.py`)

The mutable state of `AlertManager` relevant to `send_alert`, plus
counters recording its externally visible effects: alert image/metadata
pairs written to the history directory, and per-channel send threads
started. -/

/-- State of an `AlertManager` plus effect counters. -/
structure AMState where
  enabled : Bool
  cooldown_seconds : ℚ
  last_alert_time : ℚ
  email_enabled : Bool
  telegram_enabled : Bool
  events_persisted : ℕ
  sends_started : ℕ
deriving DecidableEq, Repr

/-- `AlertManager.send_alert` at wall-clock time `now`: bail out when
globally disabled; under the lock, return `False` while the cooldown is
active, otherwise stamp `last_alert_time`, write the alert image and
metadata pair, start one send thread per enabled channel, and return
`True`. -/
def send_alert (s : AMState) (now : ℚ) : Bool × AMState :=
  if !s.enabled then (false, s)
  else if now - s.last_alert_time < s.cooldown_seconds then (false, s)
  else
    (true,
      { s with
        last_alert_time := now
        events_persisted := s.events_persisted + 1
        sends_started := s.sends_started
          + (if s.email_enabled then 1 else 0)
          + (if s.telegram_enabled then 1 else 0) })

/-- Observable events of one `send_alert` call, in program order,
including acquisition and release of `alert_lock` (the `with` block
releases it on exit). -/
inductive AlertEv
  | acquire
  | release
  | set_last_time
  | persist_snapshot
  | persist_metadata
  | start_email_send
  | start_telegram_send
deriving DecidableEq, Repr

/-- Event trace of `AlertManager.send_alert`: the lock is taken first;
on an active cooldown it is released immediately; otherwise the
timestamp write, the snapshot and metadata persistence, and the channel
thread starts all happen before the `with` block exits and releases the
lock. -/
def send_alert_trace (s : AMState) (now : ℚ) : List AlertEv :=
  if !s.enabled then []
  else if now - s.last_alert_time < s.cooldown_seconds then
    [AlertEv.acquire, AlertEv.release]
  else
    [AlertEv.acquire, AlertEv.set_last_time,
     AlertEv.persist_snapshot, AlertEv.persist_metadata]
    ++ (if s.email_enabled then [AlertEv.start_email_send] else [])
    ++ (if s.telegram_enabled then [AlertEv.start_telegram_send] else [])
    ++ [AlertEv.release]

/-! ### Bounded pipeline queues (`src/intruder_detection.py`)

`capture_frames` and `process_frames` enqueue with
`queue.put(item, block=False)` and swallow `queue.Full`:  a
`queue.Queue(maxsize=m)` is full exactly when `0 < m ≤ qsize`, in which
case the offered item is dropped and the queue left unchanged. -/

/-- Non-blocking offer to a `queue.Queue(maxsize=m)` with the
drop-on-full handling of the capture and inference stages. -/
def put_nowait {α : Type} (maxsize : ℕ) (q : List α) (x : α) : List α :=
  if 0 < maxsize ∧ maxsize ≤ q.length then q else q ++ [x]

/-! ### Performance monitor (`utils/performance_monitor.py`)

Timing samples live in `collections.deque(maxlen=m)` windows: appending
to a full window evicts the oldest sample.  Durations are modelled as
exact rationals. -/

/-- `deque(maxlen=m).append(x)`: append, evicting from the left when
the window exceeds its capacity. -/
def dequeAppend (maxlen : ℕ) (d : List ℚ) (x : ℚ) : List ℚ :=
  let d' := d ++ [x]
  if maxlen < d'.length then d'.drop (d'.length - maxlen) else d'

/-- `PerformanceMonitor.get_process_time`: 0 on an empty window,
otherwise the mean of the window samples converted to milliseconds. -/
def get_process_time (process_times : List ℚ) : ℚ :=
  if process_times.isEmpty then 0
  else (process_times.sum / process_times.length) * 1000

/-! ### Concrete fixtures used in the claims' test cases -/

/-- The square zone of the specification's containment test case, with
a configurable `alert_enabled` flag. -/
def zone_z1 (b : Bool) : Zone :=
  { name := "z1"
    polygon := [(0, 0), (0, 10), (10, 10), (10, 0)]
    points := [(0, 0), (0, 10), (10, 10), (10, 0)]
    color := (0, 0, 255)
    alert_enabled := b }

/-- A zone whose polygon contains the centroid `(20, 30)` of the box
`(10, 10, 30, 50)` but not its feet anchor `(20, 50)`. -/
def midZone : Zone :=
  { name := "mid"
    polygon := [(0, 20), (40, 20), (40, 40), (0, 40)]
    points := [(0, 20), (40, 20), (40, 40), (0, 40)]
    color := (0, 0, 255)
    alert_enabled := true }

/-- The triangle zone of the specification's zone-CRUD test case. -/
def zone_tri : Zone :=
  { name := "Z"
    polygon := [(0, 0), (0, 10), (10, 10)]
    points := [(0, 0), (0, 10), (10, 10)]
    color := (0, 0, 255)
    alert_enabled := true }

/-- The replacement triangle of the specification's update test case. -/
def newTriPoly : List Pt := [(0, 0), (0, 20), (20, 20)]

/-- An alert manager whose global `enabled` flag is false. -/
def amDisabled : AMState :=
  { enabled := false, cooldown_seconds := 60, last_alert_time := 0,
    email_enabled := true, telegram_enabled := true,
    events_persisted := 0, sends_started := 0 }

/-- An enabled alert manager with both channels configured. -/
def amBoth : AMState :=
  { enabled := true, cooldown_seconds := 60, last_alert_time := 0,
    email_enabled := true, telegram_enabled := true,
    events_persisted := 0, sends_started := 0 }

/-- An enabled alert manager fresh at time 0 with a 60 s cooldown. -/
def amStart : AMState :=
  { enabled := true, cooldown_seconds := 60, last_alert_time := 0,
    email_enabled := true, telegram_enabled := false,
    events_persisted := 0, sends_started := 0 }

/-- The zone-table invariant of the specification: every stored zone
has at least 3 vertices, both in its raw point list and in the vertex
ring its polygon was built from. -/
def ZInv (zs : ZoneTable) : Prop :=
  ∀ kv ∈ zs, 3 ≤ kv.2.points.length ∧ 3 ≤ kv.2.polygon.length

/-! ### Helper lemmas -/

/-- `check_point_in_zones` is the first-match search over the
insertion-ordered table. -/
theorem check_point_in_zones_eq_find (zs : ZoneTable) (p : Pt) :
    check_point_in_zones zs p =
      (zs.find? (fun kv => kv.2.alert_enabled && containsPt kv.2.polygon p)).map
        Prod.fst := by
  induction zs with
  | nil => rfl
  | cons kv rest ih =>
    obtain ⟨zid, z⟩ := kv
    by_cases hz : z.alert_enabled
    · by_cases hc : containsPt z.polygon p
      · simp [check_point_in_zones, List.find?, hz, hc]
      · simp [check_point_in_zones, List.find?, hz, hc, ih]
    · simp [check_point_in_zones, List.find?, hz, ih]

/-- One step of a dictionary read. -/
theorem dictGet_cons (kv : String × Zone) (zs : ZoneTable) (k : String) :
    dictGet (kv :: zs) k = if kv.1 == k then some kv.2 else dictGet zs k := by
  by_cases h : kv.1 == k
  · simp [dictGet, List.find?, h]
  · simp [dictGet, List.find?, h]

/-- One step of an in-place field mutation. -/
theorem mapVal_cons (kv : String × Zone) (zs : ZoneTable) (k : String)
    (f : Zone → Zone) :
    mapVal (kv :: zs) k f =
      (if kv.1 == k then (kv.1, f kv.2) else kv) :: mapVal zs k f := rfl

/-- Reading the mutated key after an in-place field mutation. -/
theorem dictGet_mapVal_same (zs : ZoneTable) (k : String) (f : Zone → Zone) :
    dictGet (mapVal zs k f) k = (dictGet zs k).map f := by
  induction zs with
  | nil => rfl
  | cons kv rest ih =>
    rw [mapVal_cons]
    by_cases h : kv.1 == k
    · simp [dictGet_cons, h]
    · simp [dictGet_cons, h, ih]

/-- Reading a different key after an in-place field mutation. -/
theorem dictGet_mapVal_other (zs : ZoneTable) (k k' : String) (f : Zone → Zone)
    (hne : k' ≠ k) : dictGet (mapVal zs k f) k' = dictGet zs k' := by
  induction zs with
  | nil => rfl
  | cons kv rest ih =>
    rw [mapVal_cons]
    by_cases h : kv.1 == k
    · have hk : kv.1 = k := by simpa using h
      have h' : (k == k') = false := by simpa using (Ne.symm hne)
      simp [dictGet_cons, h, hk, h', ih]
    · by_cases h2 : kv.1 == k'
      · simp [dictGet_cons, h, h2]
      · simp [dictGet_cons, h, h2, ih]

/-! ### Claims -/

/-- C1: `check_point_in_zones` iterates the zones in insertion order and
returns the id of the first zone whose `alert_enabled` flag is true and
whose polygon contains the point; zones with `alert_enabled = false` are
never returned, and if no enabled zone contains the point the result is
none.  For the polygon `[[0,0],[0,10],[10,10],[10,0]]` the point `(5,5)`
is matched and `(15,15)` is not, and with `alert_enabled = false` no
point at all is matched. -/
theorem locate_first_enabled_match :
    (∀ (zs : ZoneTable) (p : Pt),
      check_point_in_zones zs p =
        (zs.find? (fun kv => kv.2.alert_enabled && containsPt kv.2.polygon p)).map
          Prod.fst) ∧
    (∀ (zs : ZoneTable) (p : Pt) (zid : String),
      check_point_in_zones zs p = some zid →
        ∃ z, (zid, z) ∈ zs ∧ z.alert_enabled = true ∧
          containsPt z.polygon p = true) ∧
    check_point_in_zones [("z1", zone_z1 true)] (5, 5) = some "z1" ∧
    check_point_in_zones [("z1", zone_z1 true)] (15, 15) = none ∧
    (∀ p : Pt, check_point_in_zones [("z1", zone_z1 false)] p = none) := by
  refine ⟨check_point_in_zones_eq_find, ?_, by decide, by decide, ?_⟩
  · intro zs p zid h
    rw [check_point_in_zones_eq_find] at h
    obtain ⟨kv, hfind, hfst⟩ := Option.map_eq_some'.mp h
    have hmem : kv ∈ zs := List.mem_of_find?_eq_some hfind
    have hpred := List.find?_some hfind
    rw [Bool.and_eq_true] at hpred
    refine ⟨kv.2, ?_, hpred.1, hpred.2⟩
    have : kv = (zid, kv.2) := by
      rw [← hfst]
    rwa [this] at hmem
  · intro p
    simp [check_point_in_zones, zone_z1]

/-- C1 witness: the proved characterization applied at the square zone
and the interior point `(5, 5)`. -/
theorem locate_first_enabled_match_witness :
    ∃ z, ("z1", z) ∈ [("z1", zone_z1 true)] ∧ z.alert_enabled = true ∧
      containsPt z.polygon (5, 5) = true :=
  locate_first_enabled_match.2.1 [("z1", zone_z1 true)] (5, 5) "z1" (by decide)

/-- C3: the anchor point used for zone containment of a detection box
`(x1, y1, x2, y2)` is the bottom-center `((x1 + x2) // 2, y2)`, not the
box centroid; the box `(10, 10, 30, 50)` yields anchor `(20, 50)`, and
`process_results` takes its zone-membership decision at that point:
for `midZone`, which contains the centroid `(20, 30)` but not the feet
point `(20, 50)`, the decision is negative. -/
theorem feet_anchor_bottom_center :
    (∀ (zs : ZoneTable) (x1 y1 x2 y2 : Int),
      detection_zone zs x1 y1 x2 y2 =
        check_point_in_zones zs ((x1 + x2).fdiv 2, y2)) ∧
    anchor_point 10 10 30 50 = (20, 50) ∧
    anchor_point 10 10 30 50 ≠ (20, 30) ∧
    containsPt midZone.polygon (20, 30) = true ∧
    containsPt midZone.polygon (20, 50) = false ∧
    detection_zone [("mid", midZone)] 10 10 30 50 = none ∧
    check_point_in_zones [("mid", midZone)] (20, 30) = some "mid" :=
  ⟨fun _ _ _ _ _ => rfl, by decide, by decide, by decide, by decide,
    by decide, by decide⟩

/-- Folding non-blocking offers into a queue below capacity accepts
exactly the prefix that fits. -/
theorem foldl_put_nowait {α : Type} (cap : ℕ) (hcap : 0 < cap) :
    ∀ (xs q : List α),
      xs.foldl (put_nowait cap) q = q ++ xs.take (cap - q.length) := by
  intro xs
  induction xs with
  | nil => intro q; simp
  | cons x xs ih =>
    intro q
    simp only [List.foldl_cons]
    by_cases h : cap ≤ q.length
    · have h1 : put_nowait cap q x = q := by simp [put_nowait, hcap, h]
      have h2 : cap - q.length = 0 := by omega
      rw [h1, ih q, h2]
      simp
    · have h1 : put_nowait cap q x = q ++ [x] := by
        have : ¬ (0 < cap ∧ cap ≤ q.length) := by omega
        simp [put_nowait, this]
      have h2 : cap - q.length = (cap - (q.length + 1)) + 1 := by omega
      rw [h1, ih (q ++ [x]), h2]
      simp [List.take_succ_cons]

/-- C5: for a bounded queue of capacity `N > 0`, offering any sequence
of items with none drained accepts exactly the first `N`, and every
offer made while the queue is full is rejected without blocking, the
offered item being dropped and the queue left unchanged. -/
theorem queue_drop_policy (α : Type) (cap : ℕ) (hcap : 0 < cap) :
    (∀ xs : List α, xs.foldl (put_nowait cap) [] = xs.take cap) ∧
    (∀ (q : List α) (x : α), cap ≤ q.length → put_nowait cap q x = q) := by
  constructor
  · intro xs
    rw [foldl_put_nowait cap hcap]
    simp
  · intro q x h
    simp [put_nowait, hcap, h]

/-- C5 witness: capacity 3, five frames offered, the first three
accepted and a further offer on the full queue dropped. -/
theorem queue_drop_policy_witness :
    [1, 2, 3, 4, 5].foldl (put_nowait 3) ([] : List ℕ) = [1, 2, 3] ∧
    put_nowait 3 [1, 2, 3] 9 = [1, 2, 3] := by
  have h := queue_drop_policy ℕ 3 (by decide)
  exact ⟨(h.1 [1, 2, 3, 4, 5]).trans (by decide), h.2 [1, 2, 3] 9 (by decide)⟩

/-- C8: the processing-time window is a fixed-capacity FIFO evicting
the oldest sample when full, and `get_process_time` returns the mean of
the window samples times 1000, or 0 on an empty window; with capacity 3
and durations `[0.1, 0.2, 0.3, 0.4]` appended in order the window holds
`[0.2, 0.3, 0.4]` and the reported value is `0.3 × 1000`. -/
theorem process_time_window :
    (∀ (cap : ℕ) (d : List ℚ) (x : ℚ), 0 < cap → d.length = cap →
      dequeAppend cap d x = d.drop 1 ++ [x]) ∧
    (∀ (cap : ℕ) (d : List ℚ) (x : ℚ), d.length < cap →
      dequeAppend cap d x = d ++ [x]) ∧
    get_process_time [] = 0 ∧
    (∀ d : List ℚ, d ≠ [] →
      get_process_time d = (d.sum / d.length) * 1000) ∧
    [(1 : ℚ)/10, 2/10, 3/10, 4/10].foldl (dequeAppend 3) [] =
      [2/10, 3/10, 4/10] ∧
    get_process_time [(2 : ℚ)/10, 3/10, 4/10] = (3/10) * 1000 := by
  refine ⟨?_, ?_, rfl, ?_, by norm_num [dequeAppend], ?_⟩
  · intro cap d x hcap hlen
    have hlt : cap < (d ++ [x]).length := by simp [hlen]
    have hsub : (d ++ [x]).length - cap = 1 := by simp [hlen]
    simp only [dequeAppend, if_pos hlt, hsub]
    rw [List.drop_append_of_le_length (by omega)]
  · intro cap d x hlen
    have hle : ¬ (cap < d.length + 1) := by omega
    simp [dequeAppend, hle]
  · intro d hd
    simp [get_process_time, hd]
  · norm_num [get_process_time]

/-- C8 witness: the eviction and mean laws applied at the concrete
capacity-3 window. -/
theorem process_time_window_witness :
    dequeAppend 3 [(1 : ℚ)/10, 2/10, 3/10] (4/10) = [2/10, 3/10, 4/10] ∧
    dequeAppend 3 [(1 : ℚ)/10] (2/10) = [1/10, 2/10] ∧
    get_process_time [(2 : ℚ)] = 2000 := by
  refine ⟨?_, ?_, ?_⟩
  · exact (process_time_window.1 3 [(1 : ℚ)/10, 2/10, 3/10] (4/10) (by decide)
      (by decide)).trans (by norm_num)
  · exact (process_time_window.2.1 3 [(1 : ℚ)/10] (2/10) (by decide)).trans
      (by norm_num)
  · exact (process_time_window.2.2.2.1 [(2 : ℚ)] (by simp)).trans (by norm_num)

/-- Dictionary writes of a well-formed zone preserve the vertex
invariant. -/
theorem ZInv_dictInsert {zs : ZoneTable} {k : String} {v : Zone}
    (h : ZInv zs) (hv : 3 ≤ v.points.length ∧ 3 ≤ v.polygon.length) :
    ZInv (dictInsert zs k v) := by
  intro kv hkv
  by_cases hk : hasKey zs k
  · rw [dictInsert, if_pos hk] at hkv
    obtain ⟨kv', hmem, heq⟩ := List.mem_map.mp hkv
    by_cases he : kv'.1 == k
    · rw [if_pos he] at heq
      rw [← heq]
      exact hv
    · rw [if_neg he] at heq
      rw [← heq]
      exact h kv' hmem
  · rw [dictInsert, if_neg hk] at hkv
    rcases List.mem_append.mp hkv with hin | hin
    · exact h kv hin
    · rw [List.mem_singleton.mp hin]
      exact hv

/-- In-place field mutations that keep at least 3 vertices preserve the
vertex invariant. -/
theorem ZInv_mapVal {zs : ZoneTable} {k : String} {f : Zone → Zone}
    (h : ZInv zs)
    (hf : ∀ z : Zone, 3 ≤ z.points.length ∧ 3 ≤ z.polygon.length →
      3 ≤ (f z).points.length ∧ 3 ≤ (f z).polygon.length) :
    ZInv (mapVal zs k f) := by
  intro kv hkv
  obtain ⟨kv', hmem, heq⟩ := List.mem_map.mp hkv
  by_cases he : kv'.1 == k
  · rw [if_pos he] at heq
    rw [← heq]
    exact hf kv'.2 (h kv' hmem)
  · rw [if_neg he] at heq
    rw [← heq]
    exact h kv' hmem

/-- `load_zones` preserves the vertex invariant. -/
theorem ZInv_load_zones :
    ∀ (cfg : List (String × ZoneConfig)) (zs : ZoneTable),
      ZInv zs → ZInv (load_zones zs cfg) := by
  intro cfg
  induction cfg with
  | nil => intro zs h; exact h
  | cons kv rest ih =>
    intro zs h
    obtain ⟨zone_id, zone_data⟩ := kv
    rw [load_zones]
    by_cases hlen : (zone_data.points.getD []).length < 3
    · rw [if_pos hlen]
      exact ih zs h
    · rw [if_neg hlen]
      exact ih _ (ZInv_dictInsert h (by constructor <;> (simp only []; omega)))

/-- C6: every zone stored in the zone table has at least 3 vertices,
and the invariant is preserved by every table operation: `load_zones`
skips undersized configured zones individually, `add_zone` rejects
undersized point lists, and `update_zone` never installs them. -/
theorem zone_min_vertices_invariant :
    (∀ cfg : List (String × ZoneConfig), ZInv (load_zones [] cfg)) ∧
    (∀ (zs : ZoneTable) (cfg : List (String × ZoneConfig)),
      ZInv zs → ZInv (load_zones zs cfg)) ∧
    (∀ (zs : ZoneTable) (zone_id nm : String) (pts : List Pt)
        (c : Int × Int × Int) (ae : Bool),
      ZInv zs → ZInv (add_zone zs zone_id nm pts c ae).2) ∧
    (∀ (zs : ZoneTable) (zone_id : String) (pts : Option (List Pt))
        (ae : Option Bool) (c : Option (Int × Int × Int)),
      ZInv zs → ZInv (update_zone zs zone_id pts ae c).2) := by
  refine ⟨?_, ?_, ?_, ?_⟩
  · intro cfg
    exact ZInv_load_zones cfg [] (by intro kv hkv; cases hkv)
  · intro zs cfg h
    exact ZInv_load_zones cfg zs h
  · intro zs zone_id nm pts c ae h
    by_cases hrej : hasKey zs zone_id || pts.length < 3
    · rw [add_zone, if_pos hrej]
      exact h
    · rw [add_zone, if_neg hrej]
      have hlen : 3 ≤ pts.length := by
        simp only [Bool.or_eq_true, decide_eq_true_eq, not_or] at hrej
        omega
      intro kv hkv
      rcases List.mem_append.mp hkv with hin | hin
      · exact h kv hin
      · rw [List.mem_singleton.mp hin]
        exact ⟨hlen, hlen⟩
  · intro zs zone_id pts ae c h
    rcases pts with _ | p <;> rcases ae with _ | b <;> rcases c with _ | col <;>
      by_cases hkey : hasKey zs zone_id <;>
      simp only [update_zone, hkey, Bool.not_true, Bool.not_false, if_true,
        if_false, Bool.false_eq_true, Bool.true_eq_false, ite_true, ite_false,
        reduceIte] <;>
      first
        | exact h
        | exact ZInv_mapVal h fun z hz => hz
        | exact ZInv_mapVal (ZInv_mapVal h fun z hz => hz) fun z hz => hz
        | (by_cases hp : 3 ≤ p.length
           · simp only [hp, if_true, ite_true, reduceIte]
             first
               | exact ZInv_mapVal h fun z _ => ⟨hp, hp⟩
               | exact ZInv_mapVal (ZInv_mapVal h fun z _ => ⟨hp, hp⟩)
                   fun z hz => hz
               | exact ZInv_mapVal
                   (ZInv_mapVal (ZInv_mapVal h fun z _ => ⟨hp, hp⟩)
                     fun z hz => hz) fun z hz => hz
           · simp only [hp, if_false, ite_false, reduceIte]
             first
               | exact h
               | exact ZInv_mapVal h fun z hz => hz
               | exact ZInv_mapVal (ZInv_mapVal h fun z hz => hz)
                   fun z hz => hz)

/-- C6 witness: the invariant preservation laws applied at a concrete
one-zone table, with an undersized `add_zone` and an undersized
`update_zone` request. -/
theorem zone_min_vertices_invariant_witness :
    ZInv (load_zones [] [("a", ⟨none, some [(0, 0), (1, 1)], none, none⟩)]) ∧
    ZInv (add_zone [("z1", zone_z1 true)] "z2" "Z2" [(0, 0)] (0, 0, 255)
      true).2 ∧
    ZInv (update_zone [("z1", zone_z1 true)] "z1" (some [(1, 1)]) none
      none).2 :=
  ⟨zone_min_vertices_invariant.1 [("a", ⟨none, some [(0, 0), (1, 1)], none, none⟩)],
   zone_min_vertices_invariant.2.2.1 [("z1", zone_z1 true)] "z2" "Z2"
     [(0, 0)] (0, 0, 255) true (by
       intro kv hkv
       rw [List.mem_singleton] at hkv
       subst hkv
       decide),
   zone_min_vertices_invariant.2.2.2 [("z1", zone_z1 true)] "z1"
     (some [(1, 1)]) none none (by
       intro kv hkv
       rw [List.mem_singleton] at hkv
       subst hkv
       decide)⟩

/-- C7 counterexample: for the existing zone `z1`, supplying the
2-point list `[(0,0),(0,1)]` to `update_zone` reports success but does
not rebuild the polygon from those points: the table is returned
unchanged, the stored polygon still differs from the supplied points,
and a subsequent `check_point_in_zones` query still answers from the
old polygon. -/
theorem update_zone_short_points_kept :
    update_zone [("z1", zone_tri)] "z1" (some [(0, 0), (0, 1)]) none none
      = (true, [("z1", zone_tri)]) ∧
    zone_tri.polygon ≠ [((0 : Int), (0 : Int)), (0, 1)] ∧
    check_point_in_zones
      (update_zone [("z1", zone_tri)] "z1" (some [(0, 0), (0, 1)]) none
        none).2 (2, 5) = some "z1" :=
  ⟨by decide, by decide, by decide⟩

/-- C7 amended: `update_zone` returns failure for every unknown zone
id; for every existing id, whenever a points list with at least 3
elements is supplied the zone's polygon is rebuilt from exactly those
points (other zones untouched), so every subsequent locate query
reflects only the new polygon, never the old one or a mix — a supplied
points list with fewer than 3 elements is instead ignored. -/
theorem update_zone_rebuild :
    (∀ (zs : ZoneTable) (zone_id : String) (pts : Option (List Pt))
        (ae : Option Bool) (c : Option (Int × Int × Int)),
      hasKey zs zone_id = false →
        update_zone zs zone_id pts ae c = (false, zs)) ∧
    (∀ (zs : ZoneTable) (zone_id : String) (pts : List Pt),
      hasKey zs zone_id = true → 3 ≤ pts.length →
        (update_zone zs zone_id (some pts) none none).1 = true ∧
        dictGet (update_zone zs zone_id (some pts) none none).2 zone_id =
          (dictGet zs zone_id).map
            (fun z => { z with points := pts, polygon := pts }) ∧
        (∀ k : String, k ≠ zone_id →
          dictGet (update_zone zs zone_id (some pts) none none).2 k =
            dictGet zs k)) ∧
    (∀ p : Pt,
      check_point_in_zones
        (update_zone [("z1", zone_tri)] "z1" (some newTriPoly) none none).2
        p = if containsPt newTriPoly p then some "z1" else none) := by
  refine ⟨?_, ?_, ?_⟩
  · intro zs zone_id pts ae c hkey
    simp [update_zone, hkey]
  · intro zs zone_id pts hkey hlen
    have hres : update_zone zs zone_id (some pts) none none =
        (true, mapVal zs zone_id
          (fun z => { z with points := pts, polygon := pts })) := by
      simp [update_zone, hkey, hlen]
    rw [hres]
    refine ⟨rfl, ?_, ?_⟩
    · simpa using dictGet_mapVal_same zs zone_id
        (fun z => { z with points := pts, polygon := pts })
    · intro k hk
      simpa using dictGet_mapVal_other zs zone_id k
        (fun z => { z with points := pts, polygon := pts }) hk
  · intro p
    have hres : (update_zone [("z1", zone_tri)] "z1" (some newTriPoly) none
        none).2 = [("z1",
          { name := "Z", polygon := newTriPoly, points := newTriPoly,
            color := (0, 0, 255), alert_enabled := true })] := by decide
    rw [hres]
    simp [check_point_in_zones]

/-- C7 witness: the rebuild law applied at the concrete one-zone table
and the specification's replacement triangle. -/
theorem update_zone_rebuild_witness :
    dictGet (update_zone [("z1", zone_tri)] "z1" (some newTriPoly) none
      none).2 "z1" = some
        { name := "Z", polygon := newTriPoly, points := newTriPoly,
          color := (0, 0, 255), alert_enabled := true } := by
  have h := update_zone_rebuild.2.1 [("z1", zone_tri)] "z1" newTriPoly
    (by decide) (by decide)
  exact h.2.1.trans (by decide)

/-- C9: for every existing zone id, `update_zone` called with a points
list of fewer than 3 elements and no other arguments returns `True`
while leaving the whole zone table — stored points, polygon, color and
`alert_enabled` — unchanged: the undersized point list is silently
ignored rather than rejected. -/
theorem update_zone_ignores_short_points :
    ∀ (zs : ZoneTable) (zone_id : String) (pts : List Pt),
      hasKey zs zone_id = true → pts.length < 3 →
        update_zone zs zone_id (some pts) none none = (true, zs) := by
  intro zs zone_id pts hkey hlen
  have hnot : ¬ 3 ≤ pts.length := by omega
  simp [update_zone, hkey, hnot]

/-- C9 witness: the silently ignored undersized update applied at a
concrete one-zone table. -/
theorem update_zone_ignores_short_points_witness :
    update_zone [("z1", zone_z1 true)] "z1" (some [(5, 5)]) none none
      = (true, [("z1", zone_z1 true)]) :=
  update_zone_ignores_short_points [("z1", zone_z1 true)] "z1" [(5, 5)]
    (by decide) (by decide)

/-- C2 counterexample: with the global `enabled` flag false and the
cooldown long expired, `send_alert` still returns `False` and changes
nothing, so the claim's unqualified "otherwise it sets
`last_dispatch_time = now`, persists ... and returns true" fails. -/
theorem send_alert_disabled_breaks_dispatch :
    ¬ ((100 : ℚ) - amDisabled.last_alert_time < amDisabled.cooldown_seconds) ∧
    send_alert amDisabled 100 = (false, amDisabled) := by
  constructor
  · norm_num [amDisabled]
  · rfl

/-- C2 amended: `send_alert` returns false with no side effects — state
unchanged, nothing persisted, no channel send started — whenever
`now - last_alert_time < cooldown_seconds`; otherwise, provided the
global `enabled` flag is true, it sets `last_alert_time = now`,
persists the snapshot-and-detections record, and returns true.  With
cooldown 60 s and the gate open at time `t`, attempts at `t`, `t + 30`
and `t + 61` return true, false, true, and exactly 2 alert events are
persisted across the three attempts. -/
theorem send_alert_cooldown_gate :
    (∀ (s : AMState) (now : ℚ),
      now - s.last_alert_time < s.cooldown_seconds →
        send_alert s now = (false, s)) ∧
    (∀ (s : AMState) (now : ℚ), s.enabled = true →
      ¬ (now - s.last_alert_time < s.cooldown_seconds) →
        (send_alert s now).1 = true ∧
        (send_alert s now).2.last_alert_time = now ∧
        (send_alert s now).2.events_persisted = s.events_persisted + 1) ∧
    (∀ (s : AMState) (t : ℚ), s.enabled = true →
      s.cooldown_seconds = 60 → 60 ≤ t - s.last_alert_time →
        (send_alert s t).1 = true ∧
        (send_alert (send_alert s t).2 (t + 30)).1 = false ∧
        (send_alert (send_alert (send_alert s t).2 (t + 30)).2
          (t + 61)).1 = true ∧
        (send_alert (send_alert (send_alert s t).2 (t + 30)).2
          (t + 61)).2.events_persisted = s.events_persisted + 2) := by
  have gate_false : ∀ (s : AMState) (now : ℚ),
      now - s.last_alert_time < s.cooldown_seconds →
        send_alert s now = (false, s) := by
    intro s now h
    by_cases he : s.enabled
    · simp [send_alert, he, h]
    · simp [send_alert, he]
  have gate_true : ∀ (s : AMState) (now : ℚ), s.enabled = true →
      ¬ (now - s.last_alert_time < s.cooldown_seconds) →
        send_alert s now = (true,
          { s with
            last_alert_time := now
            events_persisted := s.events_persisted + 1
            sends_started := s.sends_started
              + (if s.email_enabled then 1 else 0)
              + (if s.telegram_enabled then 1 else 0) }) := by
    intro s now he h
    simp [send_alert, he, h]
  refine ⟨gate_false, ?_, ?_⟩
  · intro s now he h
    rw [gate_true s now he h]
    exact ⟨rfl, rfl, rfl⟩
  · intro s t he hcd hge
    have h0 : ¬ (t - s.last_alert_time < s.cooldown_seconds) := by
      rw [hcd]
      exact not_lt.mpr hge
    have e1 := gate_true s t he h0
    have e2 := gate_false
      { s with
        last_alert_time := t
        events_persisted := s.events_persisted + 1
        sends_started := s.sends_started
          + (if s.email_enabled then 1 else 0)
          + (if s.telegram_enabled then 1 else 0) }
      (t + 30)
      (by
        show (t + 30) - t < s.cooldown_seconds
        rw [hcd]
        norm_num)
    have e3 := gate_true
      { s with
        last_alert_time := t
        events_persisted := s.events_persisted + 1
        sends_started := s.sends_started
          + (if s.email_enabled then 1 else 0)
          + (if s.telegram_enabled then 1 else 0) }
      (t + 61) he
      (by
        show ¬ ((t + 61) - t < s.cooldown_seconds)
        rw [hcd]
        norm_num)
    simp only [e1, e2, e3]
    exact ⟨trivial, trivial, trivial, trivial⟩

/-- C2 witness: the cooldown gate applied at a fresh enabled manager
with a 60 s cooldown, attempts at times 30 (blocked) and 60, 90, 121
(true, false, true with exactly 2 events persisted). -/
theorem send_alert_cooldown_gate_witness :
    send_alert amStart 30 = (false, amStart) ∧
    (send_alert amStart 60).1 = true ∧
    (send_alert (send_alert amStart 60).2 (60 + 30)).1 = false ∧
    (send_alert (send_alert (send_alert amStart 60).2 (60 + 30)).2
      (60 + 61)).1 = true ∧
    (send_alert (send_alert (send_alert amStart 60).2 (60 + 30)).2
      (60 + 61)).2.events_persisted = amStart.events_persisted + 2 := by
  have h1 := send_alert_cooldown_gate.1 amStart 30 (by norm_num [amStart])
  have h3 := send_alert_cooldown_gate.2.2 amStart 60 rfl rfl
    (by norm_num [amStart])
  exact ⟨h1, h3.1, h3.2.1, h3.2.2.1, h3.2.2.2⟩

/-- C4 counterexample: at a concrete enabled manager with both channels
on and the cooldown expired, the snapshot persistence (and the channel
thread starts) appear in the `send_alert` trace strictly before the
lock release — they execute while the mutex is held, not after it has
been released. -/
theorem alert_persistence_inside_lock :
    send_alert_trace amBoth 100 =
      [AlertEv.acquire, AlertEv.set_last_time, AlertEv.persist_snapshot,
       AlertEv.persist_metadata, AlertEv.start_email_send,
       AlertEv.start_telegram_send, AlertEv.release] ∧
    (send_alert_trace amBoth 100).indexOf AlertEv.persist_snapshot <
      (send_alert_trace amBoth 100).indexOf AlertEv.release ∧
    (send_alert_trace amBoth 100).indexOf AlertEv.start_email_send <
      (send_alert_trace amBoth 100).indexOf AlertEv.release := by
  have h : send_alert_trace amBoth 100 =
      [AlertEv.acquire, AlertEv.set_last_time, AlertEv.persist_snapshot,
       AlertEv.persist_metadata, AlertEv.start_email_send,
       AlertEv.start_telegram_send, AlertEv.release] := by
    norm_num [send_alert_trace, amBoth]
  exact ⟨h, by rw [h]; decide, by rw [h]; decide⟩

/-- C4 amended: `alert_lock` is held across the whole `send_alert`
body: the read-check-and-set of `last_alert_time`, the
snapshot/metadata persistence and the starting of the per-channel send
threads all occur between the lock acquisition and its release, the
lock being released only when the `with` block exits. -/
theorem alert_lock_scope :
    ∀ (s : AMState) (now : ℚ), s.enabled = true →
      ∃ mid : List AlertEv,
        send_alert_trace s now =
          AlertEv.acquire :: (mid ++ [AlertEv.release]) ∧
        (¬ (now - s.last_alert_time < s.cooldown_seconds) →
          AlertEv.set_last_time ∈ mid ∧
          AlertEv.persist_snapshot ∈ mid ∧
          AlertEv.persist_metadata ∈ mid ∧
          (s.email_enabled = true → AlertEv.start_email_send ∈ mid) ∧
          (s.telegram_enabled = true → AlertEv.start_telegram_send ∈ mid)) := by
  intro s now he
  by_cases hcd : now - s.last_alert_time < s.cooldown_seconds
  · refine ⟨[], ?_, fun h => absurd hcd h⟩
    simp [send_alert_trace, he, hcd]
  · refine ⟨[AlertEv.set_last_time, AlertEv.persist_snapshot,
      AlertEv.persist_metadata]
      ++ (if s.email_enabled then [AlertEv.start_email_send] else [])
      ++ (if s.telegram_enabled then [AlertEv.start_telegram_send] else []),
      ?_, ?_⟩
    · simp [send_alert_trace, he, hcd]
    · intro _
      refine ⟨by simp, by simp, by simp, ?_, ?_⟩
      · intro hem
        simp [hem]
      · intro htel
        simp [htel]

/-- C4 witness: the lock-scope law applied at the concrete two-channel
manager `amBoth` at time 200. -/
theorem alert_lock_scope_witness :
    ∃ mid : List AlertEv,
      send_alert_trace amBoth 200 =
        AlertEv.acquire :: (mid ++ [AlertEv.release]) ∧
      (¬ ((200 : ℚ) - amBoth.last_alert_time < amBoth.cooldown_seconds) →
        AlertEv.set_last_time ∈ mid ∧
        AlertEv.persist_snapshot ∈ mid ∧
        AlertEv.persist_metadata ∈ mid ∧
        (amBoth.email_enabled = true → AlertEv.start_email_send ∈ mid) ∧
        (amBoth.telegram_enabled = true →
          AlertEv.start_telegram_send ∈ mid)) :=
  alert_lock_scope amBoth 200 rfl

/-- C10: when the alerts configuration's global `enabled` flag is
false, `send_alert` returns `False` immediately for every input and has
no side effects: the state (including `last_alert_time`) is unchanged,
nothing is persisted, no channel send is started and not even the lock
is touched, regardless of how much time has elapsed. -/
theorem send_alert_globally_disabled_noop :
    ∀ (s : AMState) (now : ℚ), s.enabled = false →
      send_alert s now = (false, s) ∧ send_alert_trace s now = [] := by
  intro s now h
  constructor
  · simp [send_alert, h]
  · simp [send_alert_trace, h]

/-- C10 witness: the disabled-manager law applied at `amDisabled` at
time 500. -/
theorem send_alert_globally_disabled_noop_witness :
    send_alert amDisabled 500 = (false, amDisabled) ∧
    send_alert_trace amDisabled 500 = [] :=
  send_alert_globally_disabled_noop amDisabled 500 rfl

end SmartSurveillance
